import Mathlib

/-!
Shallow embedding of the BIM peer-review ETL pipeline
(`src/etl/transformations.py` and `src/etl/load_local.py`).

Tables are lists of row structures; pandas operations are modelled as:
* `pd.merge(..., how="left")` → `leftJoin` (left rows kept in order,
  each left row emitted once per matching right row, or once with `none`);
* `Series.fillna` → `Option.getD`;
* `range(a, a+n)` id columns → index-based assignment via `List.enum`;
* `DataFrame.drop_duplicates()` → `dedupFirst` (keep first occurrence);
* `DataFrame.sort_values(col)` → `sortValues`, a stable insertion sort
  with an ascending-with-nulls-last comparator (the source uses pandas'
  default sort; the comparator matches its key order and null
  placement, the tie-breaking policy of the underlying quicksort is not
  modelled);
* `groupby(key)` (default `sort=True`) → distinct keys sorted ascending,
  per-group rows in original order;
* `Series.replace(a, b)` → per-cell `replaceVal`.

Spreadsheet cells are modelled as strings; numeric-coerced id columns
(`ID`, `Table`, `Reference`) as `Option Int` (to-numeric failures are
null, and null keys never match in a pandas merge).
-/

/-- pandas `pd.merge(left, right, how="left")` on a boolean match
predicate: preserves left row order; a left row with matches is emitted
once per matching right row (in right order), an unmatched left row once
with `none`. -/
def leftJoin (left : List α) (right : List β) (p : α → β → Bool) :
    List (α × Option β) :=
  left.flatMap fun a =>
    match right.filter (p a) with
    | [] => [(a, none)]
    | ms => ms.map fun b => (a, some b)

/-- pandas `drop_duplicates()` / `Series.unique()`: keep the first
occurrence of each value, in order of first appearance. -/
def dedupFirst [DecidableEq α] (seen : List α) : List α → List α
  | [] => []
  | a :: as =>
    if a ∈ seen then dedupFirst seen as
    else a :: dedupFirst (a :: seen) as

/-- pandas `Series.replace(a, b)` applied to a single cell. -/
def replaceVal (v a b : String) : String := if v == a then b else v

/-- Python's `str.startswith` (the pandas `.str.startswith` per-cell
test): a case-sensitive, untrimmed codepoint-prefix check, written so
it evaluates by kernel reduction. -/
def strStartsWith (s p : String) : Bool :=
  go s.data p.data
where
  go : List Char → List Char → Bool
    | _, [] => true
    | [], _ :: _ => false
    | a :: as, b :: bs => a == b && go as bs

/-- Codepoint-lexicographic string comparison (the order Python's `<`
gives on strings, hence the pandas sort/groupby key order), written so
it evaluates by kernel reduction. -/
def strLEb (a b : String) : Bool :=
  go a.data b.data
where
  go : List Char → List Char → Bool
    | [], _ => true
    | _ :: _, [] => false
    | a :: as, b :: bs =>
      if a < b then true
      else if b < a then false
      else go as bs

/-- Insert into a sorted list in front of the first element not below
`a` (stable insertion). -/
def orderedInsertB (le : α → α → Bool) (a : α) : List α → List α
  | [] => [a]
  | b :: l => if le a b then a :: b :: l else b :: orderedInsertB le a l

/-- pandas `DataFrame.sort_values` modelled as a stable insertion sort
on a boolean comparator. -/
def sortValues (le : α → α → Bool) : List α → List α
  | [] => []
  | a :: l => orderedInsertB le a (sortValues le l)

/-- Row of the `vp_entities` dataframe after `load_vp_files` (columns
`ID`, `Name`, `Description`; `ID` coerced to numeric, failures null). -/
structure VPEntity where
  id : Option Int
  name : String
  description : String
  deriving Repr, DecidableEq

/-- Row of the `vp_attributes` dataframe after `load_vp_files` (columns
`ID`, `Name`, `Description`, `PrimaryKey`, `Parent Name`). -/
structure VPAttribute where
  id : Option Int
  name : String
  description : String
  primaryKey : String
  parentName : String
  deriving Repr, DecidableEq

/-- Row of the `vp_relationships` dataframe after `load_vp_files`
(columns `Table`, `Reference`, `Identifying`; the two id columns are
numeric-coerced, failures null). -/
structure VPRelationship where
  table : Option Int
  reference : Option Int
  identifying : String
  deriving Repr, DecidableEq

/-- Row of a reconciled label table produced by `load_central_doc`
(columns `BIM Object`/`BIM Attribute` and `System`). -/
structure LabelRow where
  key : String
  system : String
  deriving Repr, DecidableEq

/-- Row of the `process_vp_entities` output (columns `Entity ID`,
`Entity Name`, `Entity Description`, `Entity System`). -/
structure ResolvedEntity where
  entityId : Nat
  name : String
  description : String
  system : String
  deriving Repr, DecidableEq

/-- Row of the `process_vp_attributes` output (columns `Attribute ID`,
`Attribute Name`, `Part Of Parent ID`, `Attribute Description`,
`PrimaryKey`, `Attribute System`). -/
structure ResolvedAttribute where
  attributeId : Nat
  name : String
  parentId : Option Nat
  description : String
  primaryKey : String
  system : String
  deriving Repr, DecidableEq

/-- Row of the `process_vp_relationships` output (columns
`Entity Parent`, `Entity Child`, `Entity Child Type`); the two name
columns are null when the corresponding id had no match in the entity
table. -/
structure ResolvedRelationship where
  parent : Option String
  child : Option String
  childType : String
  deriving Repr, DecidableEq

/-- The key predicate of the entity merge: `Name == BIM Object`. -/
def entityLabelMatch (e : VPEntity) (l : LabelRow) : Bool := e.name == l.key

/-- `process_vp_entities` (`src/etl/transformations.py:34`): left-join
entities to object labels on name, `fillna("entity missmatch")` on
`System`, assign `Entity ID = range(1, len+1)`. -/
def process_vp_entities (vp_entities : List VPEntity)
    (central_doc_object_labels : List LabelRow) : List ResolvedEntity :=
  let merged := leftJoin vp_entities central_doc_object_labels entityLabelMatch
  merged.enum.map fun p =>
    { entityId := p.1 + 1
      name := p.2.1.name
      description := p.2.1.description
      system := (p.2.2.map LabelRow.system).getD "entity missmatch" }

/-- The key predicate of the attribute merge: `Name == BIM Attribute`. -/
def attrLabelMatch (a : VPAttribute) (l : LabelRow) : Bool := a.name == l.key

/-- The key predicate of the owning-entity merge:
`Part Of Parent Name == Entity Name`. -/
def parentMatch (a : VPAttribute) (e : ResolvedEntity) : Bool :=
  a.parentName == e.name

/-- `process_vp_attributes` (`src/etl/transformations.py:65`): left-join
attributes to attribute labels on name, `fillna("attribute missmatch")`,
assign `Attribute ID = range(10000, 10000+len)`, then a second left-join
against the processed entities on `Part Of Parent Name == Entity Name`
to pick up `Part Of Parent ID`. -/
def process_vp_attributes (vp_attributes : List VPAttribute)
    (central_doc_attribute_labels : List LabelRow)
    (processed_entities : List ResolvedEntity) : List ResolvedAttribute :=
  let merged := leftJoin vp_attributes central_doc_attribute_labels attrLabelMatch
  let withIds := merged.enum.map fun p =>
    (10000 + p.1, p.2.1, (p.2.2.map LabelRow.system).getD "attribute missmatch")
  let joined := leftJoin withIds processed_entities fun x e => parentMatch x.2.1 e
  joined.map fun q =>
    { attributeId := q.1.1
      name := q.1.2.1.name
      parentId := q.2.map ResolvedEntity.entityId
      description := q.1.2.1.description
      primaryKey := q.1.2.1.primaryKey
      system := q.1.2.2 }

/-- Merge-key equality on numeric-coerced columns: in pandas a null key
never matches. -/
def optIdEq : Option Int → Option Int → Bool
  | some a, some b => a == b
  | _, _ => false

/-- One row of the relationship resolver's joined table, before the
sort and the swap: (`Entity Parent`, `Entity Child`, `Identifying`). -/
abbrev RelCandidates := Option String × Option String × String

/-- The two entity-name joins of `process_vp_relationships`
(`src/etl/transformations.py:115-134`): join `Table → ID` for the child
candidate name, then `Reference → ID` for the parent candidate name,
projected to (`Entity Parent`, `Entity Child`, `Identifying`). -/
def vp_rel_candidates (vp_relationships : List VPRelationship)
    (vp_entities : List VPEntity) : List RelCandidates :=
  let table_join := leftJoin vp_relationships vp_entities
    fun r e => optIdEq r.table e.id
  let reference_join := leftJoin table_join vp_entities
    fun rc e => optIdEq rc.1.reference e.id
  reference_join.map fun q =>
    (q.2.map VPEntity.name, q.1.2.map VPEntity.name, q.1.1.identifying)

/-- Sort key comparator of `sort_values("Entity Parent")`: ascending on
the string, nulls placed last (pandas default `na_position="last"`). -/
def parentLE : Option String → Option String → Bool
  | none, none => true
  | none, some _ => false
  | some _, none => true
  | some a, some b => strLEb a b

/-- `process_vp_relationships` (`src/etl/transformations.py:112`): the
two joins, the sort on `Entity Parent`, the identifying-flag-driven
parent/child swap, and the `Yes`/`No` label replacement on
`Entity Child Type`. -/
def process_vp_relationships (vp_relationships : List VPRelationship)
    (vp_entities : List VPEntity) : List ResolvedRelationship :=
  let sorted := sortValues (fun x y => parentLE x.1 y.1)
    (vp_rel_candidates vp_relationships vp_entities)
  sorted.map fun t =>
    { parent := if t.2.2 == "Yes" then t.1 else t.2.1
      child := if t.2.2 == "Yes" then t.2.1 else t.1
      childType :=
        replaceVal (replaceVal t.2.2 "Yes" "Standard Entity")
          "No" "Reference Data Table" }

/-- A central-document sheet as loaded by `pd.read_excel`: a header row
of column names and data rows of cells keyed by column name. -/
structure CentralDoc where
  cols : List String
  rows : List (List (String × String))
  deriving Repr

/-- Cell lookup by column name (only used on columns whose presence was
checked). -/
def getCell (row : List (String × String)) (c : String) : String :=
  ((row.find? fun p => p.1 == c).map Prod.snd).getD ""

/-- Projection and `"skip"` filter of `load_central_doc`
(`src/etl/load_local.py:102-103` / `122-123`): project to the key
column and `Source System`, then drop every row whose key starts with
`"skip"`. -/
def cdFiltered (doc : CentralDoc) (keyCol : String) : List (String × String) :=
  (doc.rows.map fun r => (getCell r keyCol, getCell r "Source System")).filter
    fun p => !(strStartsWith p.1 "skip")

/-- The `drop_duplicates()` step of `load_central_doc`
(`src/etl/load_local.py:104` / `124`): exact duplicate
(key, system) pairs removed, first occurrence kept. -/
def cdDeduped (doc : CentralDoc) (keyCol : String) : List (String × String) :=
  dedupFirst [] (cdFiltered doc keyCol)

/-- The per-key group handed to the `groupby(...).apply` lambda: the
`Source System` values of the filtered, deduplicated rows with key `k`,
in their retained order. -/
def groupSystems (doc : CentralDoc) (keyCol : String) (k : String) : List String :=
  ((cdDeduped doc keyCol).filter fun p => p.1 == k).map Prod.snd

/-- The shared label-reconciliation pipeline of `load_central_doc`
(`src/etl/load_local.py:102-113` and `122-133`): filter and dedup as
above, group by key (group keys sorted ascending, the pandas `groupby`
default) joining each group's unique systems with `", "`, and a final
`drop_duplicates` on the grouped rows. -/
def reconcileLabels (doc : CentralDoc) (keyCol : String) : List LabelRow :=
  let keys := sortValues strLEb
    (dedupFirst [] ((cdDeduped doc keyCol).map Prod.fst))
  dedupFirst [] <| keys.map fun k =>
    { key := k
      system := String.intercalate ", " (dedupFirst [] (groupSystems doc keyCol k)) }

/-- `load_central_doc` (`src/etl/load_local.py:75`): `none` stands for a
sheet that could not be loaded (the `pd.read_excel` try/except). On a
loaded sheet, raise unless `BIM Object` and `Source System` are present,
build the object labels, raise unless `BIM Attribute` is present, build
the attribute labels, and return the two tables. -/
def load_central_doc (doc : Option CentralDoc) :
    Except String (List LabelRow × List LabelRow) :=
  match doc with
  | none => .error "Error loading sheet"
  | some d =>
    if d.cols.contains "BIM Object" && d.cols.contains "Source System" then
      if d.cols.contains "BIM Attribute" then
        .ok (reconcileLabels d "BIM Object", reconcileLabels d "BIM Attribute")
      else .error "Required column 'BIM Attribute' not found in the sheet"
    else
      .error "Required columns 'BIM Object' and 'Source System' not found in the sheet"

/-! ### Helper lemmas about the modelling primitives -/

theorem orderedInsertB_perm (le : α → α → Bool) (a : α) (l : List α) :
    List.Perm (orderedInsertB le a l) (a :: l) := by
  induction l with
  | nil => rfl
  | cons b l ih =>
    simp only [orderedInsertB]
    split
    · rfl
    · exact (ih.cons b).trans (List.Perm.swap a b l)

theorem sortValues_perm (le : α → α → Bool) (l : List α) :
    List.Perm (sortValues le l) l := by
  induction l with
  | nil => rfl
  | cons a l ih => exact (orderedInsertB_perm le a _).trans (ih.cons a)

theorem mem_sortValues {le : α → α → Bool} {l : List α} {x : α} :
    x ∈ sortValues le l ↔ x ∈ l :=
  (sortValues_perm le l).mem_iff

theorem sortValues_length (le : α → α → Bool) (l : List α) :
    (sortValues le l).length = l.length :=
  (sortValues_perm le l).length_eq

theorem mem_dedupFirst [DecidableEq α] {seen l : List α} {x : α} :
    x ∈ dedupFirst seen l ↔ x ∈ l ∧ x ∉ seen := by
  induction l generalizing seen with
  | nil => simp [dedupFirst]
  | cons a l ih =>
    simp only [dedupFirst]
    split
    · rename_i h
      rw [ih]
      simp only [List.mem_cons]
      constructor
      · rintro ⟨hx, hs⟩; exact ⟨Or.inr hx, hs⟩
      · rintro ⟨hx | hx, hs⟩
        · exact absurd (hx ▸ h) hs
        · exact ⟨hx, hs⟩
    · rename_i h
      simp only [List.mem_cons, ih, List.mem_cons]
      constructor
      · rintro (rfl | ⟨hx, hs⟩)
        · exact ⟨Or.inl rfl, h⟩
        · exact ⟨Or.inr hx, fun hc => hs (Or.inr hc)⟩
      · rintro ⟨hx | hx, hs⟩
        · exact Or.inl hx
        · by_cases hxa : x = a
          · exact Or.inl hxa
          · exact Or.inr ⟨hx, fun hc => (by rcases hc with h1 | h2; exact hxa h1; exact hs h2 : False)⟩

theorem dedupFirst_nodup [DecidableEq α] (seen l : List α) :
    (dedupFirst seen l).Nodup := by
  induction l generalizing seen with
  | nil => exact List.nodup_nil
  | cons a l ih =>
    simp only [dedupFirst]
    split
    · exact ih seen
    · refine List.nodup_cons.mpr ⟨?_, ih (a :: seen)⟩
      intro hmem
      exact (mem_dedupFirst.mp hmem).2 (List.mem_cons_self a seen)

theorem dedupFirst_sublist [DecidableEq α] (seen l : List α) :
    List.Sublist (dedupFirst seen l) l := by
  induction l generalizing seen with
  | nil => exact List.Sublist.refl []
  | cons a l ih =>
    simp only [dedupFirst]
    split
    · exact (ih seen).cons a
    · exact (ih (a :: seen)).cons₂ a

theorem dedupFirst_eq_self [DecidableEq α] {l : List α} (h : l.Nodup)
    {seen : List α} (hs : ∀ x ∈ l, x ∉ seen) : dedupFirst seen l = l := by
  induction l generalizing seen with
  | nil => rfl
  | cons a l ih =>
    rcases List.nodup_cons.mp h with ⟨ha, hl⟩
    simp only [dedupFirst]
    rw [if_neg (hs a (List.mem_cons_self a l))]
    congr 1
    refine ih hl ?_
    intro x hx hc
    rcases List.mem_cons.mp hc with rfl | hc'
    · exact ha hx
    · exact hs x (List.mem_cons_of_mem a hx) hc'

theorem mem_leftJoin {left : List α} {right : List β} {p : α → β → Bool}
    {a : α} {m : Option β} (h : (a, m) ∈ leftJoin left right p) :
    a ∈ left ∧ ((m = none ∧ ∀ b ∈ right, ¬ p a b) ∨
      ∃ b, m = some b ∧ b ∈ right ∧ p a b) := by
  simp only [leftJoin, List.mem_flatMap] at h
  obtain ⟨a', ha', hmem⟩ := h
  rcases hf : right.filter (p a') with _ | ⟨b, ms⟩
  · rw [hf] at hmem
    simp only [List.mem_singleton, Prod.mk.injEq] at hmem
    obtain ⟨rfl, rfl⟩ := hmem
    refine ⟨ha', Or.inl ⟨rfl, ?_⟩⟩
    intro b hb hp
    have : b ∈ right.filter (p a) := List.mem_filter.mpr ⟨hb, hp⟩
    rw [hf] at this
    exact absurd this (List.not_mem_nil b)
  · rw [hf] at hmem
    simp only [List.mem_map, Prod.mk.injEq] at hmem
    obtain ⟨b', hb', rfl, rfl⟩ := hmem
    have : b' ∈ right.filter (p a') := hf ▸ hb'
    rcases List.mem_filter.mp this with ⟨hbr, hpb⟩
    exact ⟨ha', Or.inr ⟨b', rfl, hbr, hpb⟩⟩

theorem leftJoin_map_fst_of_unique {left : List α} {right : List β}
    {p : α → β → Bool} (h : ∀ a ∈ left, (right.filter (p a)).length ≤ 1) :
    (leftJoin left right p).map Prod.fst = left := by
  induction left with
  | nil => rfl
  | cons a l ih =>
    simp only [leftJoin, List.flatMap_cons, List.map_append]
    rw [show (l.flatMap _) = leftJoin l right p from rfl,
      ih fun x hx => h x (List.mem_cons_of_mem a hx)]
    rcases hf : right.filter (p a) with _ | ⟨b, ms⟩
    · simp
    · have := h a (List.mem_cons_self a l)
      rw [hf] at this
      have hms : ms = [] := by
        cases ms with
        | nil => rfl
        | cons c cs => simp at this
      subst hms
      simp

theorem enumFrom_map_fst_add (k : Nat) :
    ∀ (n : Nat) (l : List α),
      (List.enumFrom n l).map (fun p => p.1 + k) = List.range' (n + k) l.length := by
  intro n l
  induction l generalizing n with
  | nil => rfl
  | cons a l ih =>
    simp only [List.enumFrom, List.map_cons, List.length_cons, List.range'_succ]
    refine congrArg _ ?_
    rw [ih (n + 1)]
    congr 1
    omega

example :
    process_vp_entities
      [⟨some 1, "Wall", "A wall"⟩, ⟨some 2, "Door", "A door"⟩]
      [⟨"Wall", "RevitX"⟩, ⟨"Door", "RevitX"⟩] =
    [⟨1, "Wall", "A wall", "RevitX"⟩, ⟨2, "Door", "A door", "RevitX"⟩] := by
  decide

example :
    process_vp_relationships
      [⟨some 1, some 2, "Yes"⟩]
      [⟨some 1, "Door", ""⟩, ⟨some 2, "Wall", ""⟩] =
    [⟨some "Wall", some "Door", "Standard Entity"⟩] := by
  decide

example :
    process_vp_relationships
      [⟨some 1, some 2, "No"⟩]
      [⟨some 1, "Door", ""⟩, ⟨some 2, "Wall", ""⟩] =
    [⟨some "Door", some "Wall", "Reference Data Table"⟩] := by
  decide

example :
    process_vp_relationships
      [⟨some 1, some 2, "Maybe"⟩]
      [⟨some 1, "Door", ""⟩, ⟨some 2, "Wall", ""⟩] =
    [⟨some "Door", some "Wall", "Maybe"⟩] := by
  decide

theorem enum_map_fst_add (k : Nat) (l : List α) :
    l.enum.map (fun p => p.1 + k) = List.range' k l.length := by
  have h := enumFrom_map_fst_add k 0 l
  rw [Nat.zero_add] at h
  exact h

theorem snd_mem_of_mem_enumFrom {l : List α} {n i : Nat} {x : α}
    (h : (i, x) ∈ List.enumFrom n l) : x ∈ l := by
  induction l generalizing n with
  | nil => simp [List.enumFrom] at h
  | cons a l ih =>
    simp only [List.enumFrom, List.mem_cons, Prod.mk.injEq] at h
    rcases h with ⟨_, rfl⟩ | h
    · exact List.mem_cons_self _ _
    · exact List.mem_cons_of_mem a (ih h)

theorem leftJoin_map_comp_fst {left : List α} {right : List β} {p : α → β → Bool}
    (h : ∀ a ∈ left, (right.filter (p a)).length ≤ 1) (g : α → γ) :
    (leftJoin left right p).map (fun q => g q.1) = left.map g ∧
    (leftJoin left right p).length = left.length := by
  have hfst := leftJoin_map_fst_of_unique h
  constructor
  · have hcomp : (fun q : α × Option β => g q.1) = g ∘ Prod.fst := rfl
    rw [hcomp, ← List.map_map, hfst]
  · have := congrArg List.length hfst
    simpa using this

theorem length_filter_le_one_of_nodup_map {l : List α} {f : α → β}
    [DecidableEq β] (h : (l.map f).Nodup) (s : β) :
    (l.filter fun x => s == f x).length ≤ 1 := by
  induction l with
  | nil => simp
  | cons a l ih =>
    obtain ⟨ha, hl⟩ :
        (∀ x ∈ l, ¬ f x = f a) ∧ (l.map f).Nodup := by simpa using h
    simp only [List.filter_cons]
    by_cases hs : (s == f a) = true
    · rw [if_pos hs]
      have hnil : l.filter (fun x => s == f x) = [] := by
        rw [List.filter_eq_nil_iff]
        intro x hx hb
        exact ha x hx ((eq_of_beq hb).symm.trans (eq_of_beq hs))
      rw [hnil]
      simp
    · rw [if_neg hs]
      exact ih hl

/-- C6: For every input to the entity resolver, the output's `Entity ID`
column is exactly the contiguous range `[1, N]` assigned sequentially in
join-output order, where `N` is the row count of the left-join of raw
entities with the reconciled object-label table; in particular the ids
are unique with no gaps. -/
theorem entity_ids_contiguous (vp_entities : List VPEntity)
    (central_doc_object_labels : List LabelRow) :
    (process_vp_entities vp_entities central_doc_object_labels).map
        ResolvedEntity.entityId =
      List.range' 1 (leftJoin vp_entities central_doc_object_labels
        entityLabelMatch).length ∧
    ((process_vp_entities vp_entities central_doc_object_labels).map
        ResolvedEntity.entityId).Nodup := by
  have hmap :
      (process_vp_entities vp_entities central_doc_object_labels).map
        ResolvedEntity.entityId =
      List.range' 1 (leftJoin vp_entities central_doc_object_labels
        entityLabelMatch).length := by
    simp only [process_vp_entities]
    rw [List.map_map]
    exact enum_map_fst_add 1 _
  exact ⟨hmap, hmap ▸ List.nodup_range' _ _⟩

/-- C2 counterexample: with two resolved entities both named `"E"`, the
second left-join of the attribute resolver duplicates the single
attribute row, so the output has two rows both carrying
`Attribute ID = 10000`: the ids are not unique and are not the range
`[10000, 10000+M)` for `M = 2`. -/
theorem attribute_ids_counterexample :
    ((process_vp_attributes [⟨some 5, "A", "", "", "E"⟩] []
        (process_vp_entities [⟨some 1, "E", ""⟩, ⟨some 2, "E", ""⟩] [])).map
      ResolvedAttribute.attributeId = [10000, 10000]) ∧
    ¬ ((process_vp_attributes [⟨some 5, "A", "", "", "E"⟩] []
        (process_vp_entities [⟨some 1, "E", ""⟩, ⟨some 2, "E", ""⟩] [])).map
      ResolvedAttribute.attributeId).Nodup ∧
    (process_vp_attributes [⟨some 5, "A", "", "", "E"⟩] []
        (process_vp_entities [⟨some 1, "E", ""⟩, ⟨some 2, "E", ""⟩] [])).length
      = 2 ∧
    (process_vp_attributes [⟨some 5, "A", "", "", "E"⟩] []
        (process_vp_entities [⟨some 1, "E", ""⟩, ⟨some 2, "E", ""⟩] [])).map
      ResolvedAttribute.attributeId ≠ List.range' 10000 2 := by
  decide

/-- C2 amended: when every attribute's owning-entity name matches at
most one processed-entity row (in particular whenever the resolved
entity names are pairwise distinct), the attribute resolver's output
ids are unique and are exactly the contiguous range `[10000, 10000+M)`
with `M` the output row count; in general the second left-join
duplicates a row (with its already-assigned id) once per matching
entity row. -/
theorem attribute_ids_contiguous (vp_attributes : List VPAttribute)
    (central_doc_attribute_labels : List LabelRow)
    (processed_entities : List ResolvedEntity)
    (h : (processed_entities.map ResolvedEntity.name).Nodup) :
    (process_vp_attributes vp_attributes central_doc_attribute_labels
        processed_entities).map ResolvedAttribute.attributeId =
      List.range' 10000 (process_vp_attributes vp_attributes
        central_doc_attribute_labels processed_entities).length ∧
    ((process_vp_attributes vp_attributes central_doc_attribute_labels
        processed_entities).map ResolvedAttribute.attributeId).Nodup := by
  simp only [process_vp_attributes]
  have hone : ∀ (a : Nat × VPAttribute × String),
      a ∈ (leftJoin vp_attributes central_doc_attribute_labels
        attrLabelMatch).enum.map (fun p =>
          (10000 + p.1, p.2.1, (p.2.2.map LabelRow.system).getD
            "attribute missmatch")) →
      (processed_entities.filter fun e => parentMatch a.2.1 e).length ≤ 1 :=
    fun a _ => length_filter_le_one_of_nodup_map h a.2.1.parentName
  have hpair := leftJoin_map_comp_fst hone Prod.fst
  have hmap :
      ((leftJoin ((leftJoin vp_attributes central_doc_attribute_labels
          attrLabelMatch).enum.map fun p =>
            (10000 + p.1, p.2.1, (p.2.2.map LabelRow.system).getD
              "attribute missmatch")) processed_entities
          fun x e => parentMatch x.2.1 e).map fun q =>
        ({ attributeId := q.1.1
           name := q.1.2.1.name
           parentId := q.2.map ResolvedEntity.entityId
           description := q.1.2.1.description
           primaryKey := q.1.2.1.primaryKey
           system := q.1.2.2 } : ResolvedAttribute)).map
        ResolvedAttribute.attributeId =
      List.range' 10000 (leftJoin vp_attributes
        central_doc_attribute_labels attrLabelMatch).length := by
    rw [List.map_map]
    refine Eq.trans (hpair.1) ?_
    rw [List.map_map]
    refine Eq.trans ?_ (enum_map_fst_add 10000 _)
    refine List.map_congr_left ?_
    intro p _
    exact Nat.add_comm 10000 p.1
  have hlen :
      ((leftJoin ((leftJoin vp_attributes central_doc_attribute_labels
          attrLabelMatch).enum.map fun p =>
            (10000 + p.1, p.2.1, (p.2.2.map LabelRow.system).getD
              "attribute missmatch")) processed_entities
          fun x e => parentMatch x.2.1 e).map fun q =>
        ({ attributeId := q.1.1
           name := q.1.2.1.name
           parentId := q.2.map ResolvedEntity.entityId
           description := q.1.2.1.description
           primaryKey := q.1.2.1.primaryKey
           system := q.1.2.2 } : ResolvedAttribute)).length =
      (leftJoin vp_attributes central_doc_attribute_labels
        attrLabelMatch).length := by
    rw [List.length_map, hpair.2, List.length_map]
    exact List.enumFrom_length
  rw [hlen]
  exact ⟨hmap, hmap ▸ List.nodup_range' _ _⟩

/-- Witness for `attribute_ids_contiguous` at a concrete input with
distinct entity names. -/
theorem attribute_ids_contiguous_witness :
    (process_vp_attributes [⟨some 5, "A", "", "", "E"⟩, ⟨some 6, "B", "", "", "F"⟩]
        [] [⟨1, "E", "", "s"⟩, ⟨2, "F", "", "s"⟩]).map
      ResolvedAttribute.attributeId =
      List.range' 10000 (process_vp_attributes
        [⟨some 5, "A", "", "", "E"⟩, ⟨some 6, "B", "", "", "F"⟩]
        [] [⟨1, "E", "", "s"⟩, ⟨2, "F", "", "s"⟩]).length :=
  (attribute_ids_contiguous
    [⟨some 5, "A", "", "", "E"⟩, ⟨some 6, "B", "", "", "F"⟩] []
    [⟨1, "E", "", "s"⟩, ⟨2, "F", "", "s"⟩] (by decide)).1

/-- C7: a resolved entity row whose name matches no key of the
reconciled object-label table carries the sentinel system
`"entity missmatch"`, and symmetrically a resolved attribute row whose
name matches no key of the reconciled attribute-label table carries
`"attribute missmatch"`; a matched row takes the system string of a
matching label row. -/
theorem missmatch_sentinels :
    (∀ (vp_entities : List VPEntity) (labels : List LabelRow)
        (r : ResolvedEntity), r ∈ process_vp_entities vp_entities labels →
      ((∀ l ∈ labels, l.key ≠ r.name) → r.system = "entity missmatch") ∧
      ((∃ l ∈ labels, l.key = r.name) →
        ∃ l ∈ labels, l.key = r.name ∧ r.system = l.system)) ∧
    (∀ (vp_attributes : List VPAttribute) (labels : List LabelRow)
        (processed_entities : List ResolvedEntity) (r : ResolvedAttribute),
        r ∈ process_vp_attributes vp_attributes labels processed_entities →
      ((∀ l ∈ labels, l.key ≠ r.name) → r.system = "attribute missmatch") ∧
      ((∃ l ∈ labels, l.key = r.name) →
        ∃ l ∈ labels, l.key = r.name ∧ r.system = l.system)) := by
  constructor
  · intro vp_entities labels r hr
    simp only [process_vp_entities, List.mem_map] at hr
    obtain ⟨p, hp, rfl⟩ := hr
    have hmem : p.2 ∈ leftJoin vp_entities labels entityLabelMatch :=
      snd_mem_of_mem_enumFrom hp
    have hj := mem_leftJoin (a := p.2.1) (m := p.2.2) hmem
    rcases hj.2 with ⟨hnone, hall⟩ | ⟨b, hsome, hb, hpb⟩
    · constructor
      · intro _
        simp [hnone]
      · rintro ⟨l, hl, hkey⟩
        exact absurd (show entityLabelMatch p.2.1 l = true from
          beq_iff_eq.mpr hkey.symm) (by simpa using hall l hl)
    · constructor
      · intro hnomatch
        exact absurd (eq_of_beq hpb).symm (hnomatch b hb)
      · intro _
        exact ⟨b, hb, (eq_of_beq hpb).symm, by simp [hsome]⟩
  · intro vp_attributes labels processed_entities r hr
    simp only [process_vp_attributes, List.mem_map] at hr
    obtain ⟨q, hq, rfl⟩ := hr
    have hq1 : q.1 ∈ (leftJoin vp_attributes labels attrLabelMatch).enum.map
        (fun p => (10000 + p.1, p.2.1,
          (p.2.2.map LabelRow.system).getD "attribute missmatch")) :=
      (mem_leftJoin (a := q.1) (m := q.2) hq).1
    simp only [List.mem_map] at hq1
    obtain ⟨p, hp, hpq⟩ := hq1
    have hmem : p.2 ∈ leftJoin vp_attributes labels attrLabelMatch :=
      snd_mem_of_mem_enumFrom hp
    have hj := mem_leftJoin (a := p.2.1) (m := p.2.2) hmem
    have hname : q.1.2.1.name = p.2.1.name := by rw [← hpq]
    have hsys : q.1.2.2 =
        (p.2.2.map LabelRow.system).getD "attribute missmatch" := by
      rw [← hpq]
    rcases hj.2 with ⟨hnone, hall⟩ | ⟨b, hsome, hb, hpb⟩
    · constructor
      · intro _
        simp only [hsys, hnone, Option.map_none', Option.getD_none]
      · rintro ⟨l, hl, hkey⟩
        have hkey' : l.key = q.1.2.1.name := hkey
        exact absurd (show attrLabelMatch p.2.1 l = true from
          beq_iff_eq.mpr ((hkey'.trans hname).symm)) (by simpa using hall l hl)
    · constructor
      · intro hnomatch
        exact absurd ((eq_of_beq hpb).symm.trans hname.symm) (hnomatch b hb)
      · intro _
        exact ⟨b, hb, (eq_of_beq hpb).symm.trans hname.symm, by simp [hsys, hsome]⟩

/-- Witness for `missmatch_sentinels` at concrete inputs: an entity with
no label match gets the entity sentinel, a matched attribute takes the
label's system. -/
theorem missmatch_sentinels_witness :
    (⟨1, "Wall", "w", "entity missmatch"⟩ : ResolvedEntity).system =
        "entity missmatch" ∧
    ∃ l ∈ [(⟨"A", "SAP"⟩ : LabelRow)], l.key = "A" ∧
      (⟨10000, "A", none, "", "pk", "SAP"⟩ : ResolvedAttribute).system = l.system := by
  constructor
  · exact (missmatch_sentinels.1 [⟨some 1, "Wall", "w"⟩] [] ⟨1, "Wall", "w", "entity missmatch"⟩
      (by decide)).1 (by intro l hl; cases hl)
  · exact (missmatch_sentinels.2 [⟨some 7, "A", "", "pk", "X"⟩] [⟨"A", "SAP"⟩] []
      ⟨10000, "A", none, "", "pk", "SAP"⟩ (by decide)).2
      ⟨⟨"A", "SAP"⟩, by decide, rfl⟩

/-- C1 counterexample: a relationship row whose identifying flag is
`"Maybe"` (neither `"Yes"` nor `"No"`) keeps `"Maybe"` as its
`Entity Child Type`, which is neither `"Standard Entity"` nor
`"Reference Data Table"` — the `Series.replace` calls only rewrite the
exact values `"Yes"` and `"No"`. -/
theorem child_type_counterexample :
    process_vp_relationships [⟨some 1, some 2, "Maybe"⟩]
        [⟨some 1, "Door", ""⟩, ⟨some 2, "Wall", ""⟩] =
      [⟨some "Door", some "Wall", "Maybe"⟩] ∧
    ¬ ("Maybe" = "Standard Entity" ∨ "Maybe" = "Reference Data Table") := by
  decide

/-- C1 amended: each output row's `Entity Child Type` is obtained from
that same row's identifying flag (the third component of the sorted
candidate row at the same index) via `"Yes" → "Standard Entity"`,
`"No" → "Reference Data Table"`; any other flag value is passed
through unchanged (it is not mapped to `"Reference Data Table"`). -/
theorem child_type_mapping (vp_relationships : List VPRelationship)
    (vp_entities : List VPEntity) (i : Nat)
    (hs : i < (sortValues (fun x y => parentLE x.1 y.1)
      (vp_rel_candidates vp_relationships vp_entities)).length)
    (ho : i < (process_vp_relationships vp_relationships vp_entities).length) :
    ((sortValues (fun x y => parentLE x.1 y.1)
        (vp_rel_candidates vp_relationships vp_entities))[i].2.2 = "Yes" →
      (process_vp_relationships vp_relationships vp_entities)[i].childType =
        "Standard Entity") ∧
    ((sortValues (fun x y => parentLE x.1 y.1)
        (vp_rel_candidates vp_relationships vp_entities))[i].2.2 = "No" →
      (process_vp_relationships vp_relationships vp_entities)[i].childType =
        "Reference Data Table") ∧
    ((sortValues (fun x y => parentLE x.1 y.1)
        (vp_rel_candidates vp_relationships vp_entities))[i].2.2 ≠ "Yes" →
      (sortValues (fun x y => parentLE x.1 y.1)
        (vp_rel_candidates vp_relationships vp_entities))[i].2.2 ≠ "No" →
      (process_vp_relationships vp_relationships vp_entities)[i].childType =
        (sortValues (fun x y => parentLE x.1 y.1)
          (vp_rel_candidates vp_relationships vp_entities))[i].2.2) := by
  have hm : (process_vp_relationships vp_relationships vp_entities)[i] =
      (fun t : RelCandidates =>
        ({ parent := if t.2.2 == "Yes" then t.1 else t.2.1
           child := if t.2.2 == "Yes" then t.2.1 else t.1
           childType := replaceVal (replaceVal t.2.2 "Yes" "Standard Entity")
             "No" "Reference Data Table" } : ResolvedRelationship))
        ((sortValues (fun x y => parentLE x.1 y.1)
          (vp_rel_candidates vp_relationships vp_entities))[i]) := by
    simp only [process_vp_relationships] at ho ⊢
    exact List.getElem_map _
  refine ⟨?_, ?_, ?_⟩
  · intro hyes
    rw [hm]
    show replaceVal (replaceVal _ "Yes" "Standard Entity")
      "No" "Reference Data Table" = "Standard Entity"
    rw [hyes]
    decide
  · intro hno
    rw [hm]
    show replaceVal (replaceVal _ "Yes" "Standard Entity")
      "No" "Reference Data Table" = "Reference Data Table"
    rw [hno]
    decide
  · intro hnyes hno
    rw [hm]
    show replaceVal (replaceVal _ "Yes" "Standard Entity")
      "No" "Reference Data Table" = _
    simp only [replaceVal, beq_iff_eq]
    rw [if_neg hnyes, if_neg hno]

/-- Witness for `child_type_mapping` at the `"Maybe"` example row: the
flag is neither `"Yes"` nor `"No"` and is passed through as the
`Entity Child Type`. -/
theorem child_type_mapping_witness :
    ((sortValues (fun x y => parentLE x.1 y.1)
        (vp_rel_candidates [⟨some 1, some 2, "Maybe"⟩]
          [⟨some 1, "Door", ""⟩, ⟨some 2, "Wall", ""⟩])).get
      ⟨0, by decide⟩).2.2 ≠ "Yes" ∧
    ((sortValues (fun x y => parentLE x.1 y.1)
        (vp_rel_candidates [⟨some 1, some 2, "Maybe"⟩]
          [⟨some 1, "Door", ""⟩, ⟨some 2, "Wall", ""⟩])).get
      ⟨0, by decide⟩).2.2 ≠ "No" ∧
    ((process_vp_relationships [⟨some 1, some 2, "Maybe"⟩]
        [⟨some 1, "Door", ""⟩, ⟨some 2, "Wall", ""⟩]).get
      ⟨0, by decide⟩).childType =
      ((sortValues (fun x y => parentLE x.1 y.1)
          (vp_rel_candidates [⟨some 1, some 2, "Maybe"⟩]
            [⟨some 1, "Door", ""⟩, ⟨some 2, "Wall", ""⟩])).get
        ⟨0, by decide⟩).2.2 := by
  refine ⟨by decide, by decide, ?_⟩
  exact (child_type_mapping [⟨some 1, some 2, "Maybe"⟩]
    [⟨some 1, "Door", ""⟩, ⟨some 2, "Wall", ""⟩] 0
    (by decide) (by decide)).2.2 (by decide) (by decide)

/-- C3: for each row of the sorted joined table, an identifying flag of
`"Yes"` keeps the reference-side candidate as `Entity Parent` and the
table-side candidate as `Entity Child`; any other flag value swaps the
two candidates. -/
theorem relationship_swap (vp_relationships : List VPRelationship)
    (vp_entities : List VPEntity) (i : Nat)
    (hs : i < (sortValues (fun x y => parentLE x.1 y.1)
      (vp_rel_candidates vp_relationships vp_entities)).length)
    (ho : i < (process_vp_relationships vp_relationships vp_entities).length) :
    ((sortValues (fun x y => parentLE x.1 y.1)
        (vp_rel_candidates vp_relationships vp_entities))[i].2.2 = "Yes" →
      (process_vp_relationships vp_relationships vp_entities)[i].parent =
        (sortValues (fun x y => parentLE x.1 y.1)
          (vp_rel_candidates vp_relationships vp_entities))[i].1 ∧
      (process_vp_relationships vp_relationships vp_entities)[i].child =
        (sortValues (fun x y => parentLE x.1 y.1)
          (vp_rel_candidates vp_relationships vp_entities))[i].2.1) ∧
    ((sortValues (fun x y => parentLE x.1 y.1)
        (vp_rel_candidates vp_relationships vp_entities))[i].2.2 ≠ "Yes" →
      (process_vp_relationships vp_relationships vp_entities)[i].parent =
        (sortValues (fun x y => parentLE x.1 y.1)
          (vp_rel_candidates vp_relationships vp_entities))[i].2.1 ∧
      (process_vp_relationships vp_relationships vp_entities)[i].child =
        (sortValues (fun x y => parentLE x.1 y.1)
          (vp_rel_candidates vp_relationships vp_entities))[i].1) := by
  have hm : (process_vp_relationships vp_relationships vp_entities)[i] =
      (fun t : RelCandidates =>
        ({ parent := if t.2.2 == "Yes" then t.1 else t.2.1
           child := if t.2.2 == "Yes" then t.2.1 else t.1
           childType := replaceVal (replaceVal t.2.2 "Yes" "Standard Entity")
             "No" "Reference Data Table" } : ResolvedRelationship))
        ((sortValues (fun x y => parentLE x.1 y.1)
          (vp_rel_candidates vp_relationships vp_entities))[i]) := by
    simp only [process_vp_relationships] at ho ⊢
    exact List.getElem_map _
  constructor
  · intro hyes
    rw [hm]
    have hb : ((sortValues (fun x y => parentLE x.1 y.1)
        (vp_rel_candidates vp_relationships vp_entities))[i].2.2 == "Yes")
        = true := beq_iff_eq.mpr hyes
    simp [hb]
  · intro hne
    rw [hm]
    have hb : ((sortValues (fun x y => parentLE x.1 y.1)
        (vp_rel_candidates vp_relationships vp_entities))[i].2.2 == "Yes")
        = false := beq_eq_false_iff_ne.mpr hne
    simp [hb]

/-- Witness for `relationship_swap` at the spec's end-to-end example
(`table = 1 → "Door"`, `reference = 2 → "Wall"`, identifying `"Yes"`). -/
theorem relationship_swap_witness :
    ((process_vp_relationships [⟨some 1, some 2, "Yes"⟩]
        [⟨some 1, "Door", ""⟩, ⟨some 2, "Wall", ""⟩]).get
      ⟨0, by decide⟩).parent = some "Wall" ∧
    ((process_vp_relationships [⟨some 1, some 2, "Yes"⟩]
        [⟨some 1, "Door", ""⟩, ⟨some 2, "Wall", ""⟩]).get
      ⟨0, by decide⟩).child = some "Door" := by
  have h := (relationship_swap [⟨some 1, some 2, "Yes"⟩]
    [⟨some 1, "Door", ""⟩, ⟨some 2, "Wall", ""⟩] 0 (by decide) (by decide)).1
    (by decide)
  refine ⟨h.1.trans (by decide), h.2.trans (by decide)⟩

/-- C10: for every row and any identifying flag value, the swap step
only exchanges the two candidate names of that same row: the output's
(parent, child) pair is the row's candidate pair in one of its two
orders. -/
theorem relationship_pair_preserved (vp_relationships : List VPRelationship)
    (vp_entities : List VPEntity) (i : Nat)
    (hs : i < (sortValues (fun x y => parentLE x.1 y.1)
      (vp_rel_candidates vp_relationships vp_entities)).length)
    (ho : i < (process_vp_relationships vp_relationships vp_entities).length) :
    ((process_vp_relationships vp_relationships vp_entities)[i].parent =
        (sortValues (fun x y => parentLE x.1 y.1)
          (vp_rel_candidates vp_relationships vp_entities))[i].1 ∧
      (process_vp_relationships vp_relationships vp_entities)[i].child =
        (sortValues (fun x y => parentLE x.1 y.1)
          (vp_rel_candidates vp_relationships vp_entities))[i].2.1) ∨
    ((process_vp_relationships vp_relationships vp_entities)[i].parent =
        (sortValues (fun x y => parentLE x.1 y.1)
          (vp_rel_candidates vp_relationships vp_entities))[i].2.1 ∧
      (process_vp_relationships vp_relationships vp_entities)[i].child =
        (sortValues (fun x y => parentLE x.1 y.1)
          (vp_rel_candidates vp_relationships vp_entities))[i].1) := by
  have hm : (process_vp_relationships vp_relationships vp_entities)[i] =
      (fun t : RelCandidates =>
        ({ parent := if t.2.2 == "Yes" then t.1 else t.2.1
           child := if t.2.2 == "Yes" then t.2.1 else t.1
           childType := replaceVal (replaceVal t.2.2 "Yes" "Standard Entity")
             "No" "Reference Data Table" } : ResolvedRelationship))
        ((sortValues (fun x y => parentLE x.1 y.1)
          (vp_rel_candidates vp_relationships vp_entities))[i]) := by
    simp only [process_vp_relationships] at ho ⊢
    exact List.getElem_map _
  by_cases hb : ((sortValues (fun x y => parentLE x.1 y.1)
      (vp_rel_candidates vp_relationships vp_entities))[i].2.2 == "Yes") = true
  · left
    rw [hm]
    simp [hb]
  · right
    rw [hm]
    simp [Bool.of_not_eq_true hb]

/-- Witness for `relationship_pair_preserved` at the `"No"` example
row (the swapped order). -/
theorem relationship_pair_preserved_witness :
    (((process_vp_relationships [⟨some 1, some 2, "No"⟩]
          [⟨some 1, "Door", ""⟩, ⟨some 2, "Wall", ""⟩]).get
        ⟨0, by decide⟩).parent =
      ((sortValues (fun x y => parentLE x.1 y.1)
          (vp_rel_candidates [⟨some 1, some 2, "No"⟩]
            [⟨some 1, "Door", ""⟩, ⟨some 2, "Wall", ""⟩])).get
        ⟨0, by decide⟩).1 ∧
     ((process_vp_relationships [⟨some 1, some 2, "No"⟩]
          [⟨some 1, "Door", ""⟩, ⟨some 2, "Wall", ""⟩]).get
        ⟨0, by decide⟩).child =
      ((sortValues (fun x y => parentLE x.1 y.1)
          (vp_rel_candidates [⟨some 1, some 2, "No"⟩]
            [⟨some 1, "Door", ""⟩, ⟨some 2, "Wall", ""⟩])).get
        ⟨0, by decide⟩).2.1) ∨
    (((process_vp_relationships [⟨some 1, some 2, "No"⟩]
          [⟨some 1, "Door", ""⟩, ⟨some 2, "Wall", ""⟩]).get
        ⟨0, by decide⟩).parent =
      ((sortValues (fun x y => parentLE x.1 y.1)
          (vp_rel_candidates [⟨some 1, some 2, "No"⟩]
            [⟨some 1, "Door", ""⟩, ⟨some 2, "Wall", ""⟩])).get
        ⟨0, by decide⟩).2.1 ∧
     ((process_vp_relationships [⟨some 1, some 2, "No"⟩]
          [⟨some 1, "Door", ""⟩, ⟨some 2, "Wall", ""⟩]).get
        ⟨0, by decide⟩).child =
      ((sortValues (fun x y => parentLE x.1 y.1)
          (vp_rel_candidates [⟨some 1, some 2, "No"⟩]
            [⟨some 1, "Door", ""⟩, ⟨some 2, "Wall", ""⟩])).get
        ⟨0, by decide⟩).1) :=
  relationship_pair_preserved [⟨some 1, some 2, "No"⟩]
    [⟨some 1, "Door", ""⟩, ⟨some 2, "Wall", ""⟩] 0 (by decide) (by decide)

/-- C5: no key of a reconciled label table starts with `"skip"`: every
row whose key starts with the literal, case-sensitive, untrimmed prefix
`"skip"` is dropped before grouping. -/
theorem no_skip_keys (doc : CentralDoc) (keyCol : String) (row : LabelRow)
    (h : row ∈ reconcileLabels doc keyCol) :
    strStartsWith row.key "skip" = false := by
  simp only [reconcileLabels] at h
  have h1 := (mem_dedupFirst.mp h).1
  rcases List.mem_map.mp h1 with ⟨k, hk, rfl⟩
  have h2 := mem_sortValues.mp hk
  have h3 := (mem_dedupFirst.mp h2).1
  rcases List.mem_map.mp h3 with ⟨p, hp, rfl⟩
  have hp' : p ∈ dedupFirst [] (cdFiltered doc keyCol) := hp
  have h4 : p ∈ (doc.rows.map fun r =>
      (getCell r keyCol, getCell r "Source System")).filter
      (fun q => !(strStartsWith q.1 "skip")) := (mem_dedupFirst.mp hp').1
  have h5 := (List.mem_filter.mp h4).2
  simpa using h5

/-- Witness for `no_skip_keys` on a two-row central document (one of
whose keys is `"skip-temp"`, which does not survive to the output). -/
theorem no_skip_keys_witness :
    strStartsWith (⟨"Wall", "S"⟩ : LabelRow).key "skip" = false :=
  no_skip_keys
    ⟨["BIM Object", "Source System"],
      [[("BIM Object", "Wall"), ("Source System", "S")],
       [("BIM Object", "skip-temp"), ("Source System", "Y")]]⟩
    "BIM Object" ⟨"Wall", "S"⟩ (by decide)

/-- C4: for every output row, the group of system values of its key in
the filtered, deduplicated sequence has no duplicates, and the row's
joined system string is exactly those values joined with `", "` in
first-occurrence order. -/
theorem joined_systems (doc : CentralDoc) (keyCol : String) (row : LabelRow)
    (h : row ∈ reconcileLabels doc keyCol) :
    (groupSystems doc keyCol row.key).Nodup ∧
    row.system = String.intercalate ", " (groupSystems doc keyCol row.key) := by
  simp only [reconcileLabels] at h
  have h1 := (mem_dedupFirst.mp h).1
  rcases List.mem_map.mp h1 with ⟨k, hk, rfl⟩
  have hnodup : (groupSystems doc keyCol k).Nodup := by
    have hd : (cdDeduped doc keyCol).Nodup := dedupFirst_nodup [] _
    have hfilter : ((cdDeduped doc keyCol).filter fun p => p.1 == k).Nodup :=
      hd.filter _
    refine hfilter.map_on ?_
    intro x hx y hy hxy
    have hxk : x.1 = k := by simpa using (List.mem_filter.mp hx).2
    have hyk : y.1 = k := by simpa using (List.mem_filter.mp hy).2
    exact Prod.ext (hxk.trans hyk.symm) hxy
  refine ⟨hnodup, ?_⟩
  show String.intercalate ", " (dedupFirst [] (groupSystems doc keyCol k)) = _
  rw [dedupFirst_eq_self hnodup (fun x _ => List.not_mem_nil x)]

/-- Witness for `joined_systems` on a central document where key
`"Wall"` carries the two systems `"S1"` and `"S2"` (in that first-seen
order) plus a duplicate pair. -/
theorem joined_systems_witness :
    (groupSystems
        ⟨["BIM Object", "Source System"],
          [[("BIM Object", "Wall"), ("Source System", "S1")],
           [("BIM Object", "Wall"), ("Source System", "S2")],
           [("BIM Object", "Wall"), ("Source System", "S1")]]⟩
        "BIM Object" (⟨"Wall", "S1, S2"⟩ : LabelRow).key).Nodup ∧
    (⟨"Wall", "S1, S2"⟩ : LabelRow).system = String.intercalate ", "
      (groupSystems
        ⟨["BIM Object", "Source System"],
          [[("BIM Object", "Wall"), ("Source System", "S1")],
           [("BIM Object", "Wall"), ("Source System", "S2")],
           [("BIM Object", "Wall"), ("Source System", "S1")]]⟩
        "BIM Object" (⟨"Wall", "S1, S2"⟩ : LabelRow).key) :=
  joined_systems
    ⟨["BIM Object", "Source System"],
      [[("BIM Object", "Wall"), ("Source System", "S1")],
       [("BIM Object", "Wall"), ("Source System", "S2")],
       [("BIM Object", "Wall"), ("Source System", "S1")]]⟩
    "BIM Object" ⟨"Wall", "S1, S2"⟩ (by decide)

/-- C9: `load_central_doc` errors exactly when the sheet cannot be
loaded or at least one of the required columns `BIM Object`,
`Source System`, `BIM Attribute` is absent; when all three are present
it performs no other validation and returns the object and attribute
reconciled-label tables. -/
theorem load_central_doc_error_iff (doc : Option CentralDoc) :
    ((∃ msg, load_central_doc doc = Except.error msg) ↔
      doc = none ∨ ∃ d, doc = some d ∧
        ¬ ("BIM Object" ∈ d.cols ∧ "Source System" ∈ d.cols ∧
           "BIM Attribute" ∈ d.cols)) ∧
    (∀ d, doc = some d → "BIM Object" ∈ d.cols → "Source System" ∈ d.cols →
      "BIM Attribute" ∈ d.cols →
      load_central_doc doc = Except.ok
        (reconcileLabels d "BIM Object", reconcileLabels d "BIM Attribute")) := by
  cases doc with
  | none =>
    refine ⟨⟨fun _ => Or.inl rfl, fun _ => ⟨"Error loading sheet", rfl⟩⟩, ?_⟩
    intro d hd
    cases hd
  | some d =>
    have hbridge : ∀ s : String, d.cols.contains s = true ↔ s ∈ d.cols :=
      fun s => List.elem_iff
    constructor
    · constructor
      · intro ⟨msg, hmsg⟩
        refine Or.inr ⟨d, rfl, ?_⟩
        intro ⟨h1, h2, h3⟩
        rw [show load_central_doc (some d) = Except.ok
            (reconcileLabels d "BIM Object", reconcileLabels d "BIM Attribute")
          from ?_] at hmsg
        · cases hmsg
        · simp only [load_central_doc]
          rw [if_pos, if_pos]
          · exact (hbridge _).mpr h3
          · rw [Bool.and_eq_true]
            exact ⟨(hbridge _).mpr h1, (hbridge _).mpr h2⟩
      · rintro (hnone | ⟨d', hd', hmiss⟩)
        · cases hnone
        · cases hd'
          simp only [load_central_doc]
          by_cases h12 : (d.cols.contains "BIM Object" &&
              d.cols.contains "Source System") = true
          · rw [if_pos h12]
            by_cases h3 : d.cols.contains "BIM Attribute" = true
            · exfalso
              rw [Bool.and_eq_true] at h12
              exact hmiss ⟨(hbridge _).mp h12.1, (hbridge _).mp h12.2,
                (hbridge _).mp h3⟩
            · rw [if_neg h3]
              exact ⟨_, rfl⟩
          · rw [if_neg h12]
            exact ⟨_, rfl⟩
    · intro d' hd' h1 h2 h3
      cases hd'
      simp only [load_central_doc]
      rw [if_pos, if_pos]
      · exact (hbridge _).mpr h3
      · rw [Bool.and_eq_true]
        exact ⟨(hbridge _).mpr h1, (hbridge _).mpr h2⟩

/-- Witness for `load_central_doc_error_iff`: a sheet with all three
required columns loads successfully into the two label tables. -/
theorem load_central_doc_witness :
    load_central_doc (some ⟨["BIM Object", "Source System", "BIM Attribute"],
        [[("BIM Object", "Wall"), ("Source System", "S"),
          ("BIM Attribute", "Height")]]⟩) =
      Except.ok
        (reconcileLabels ⟨["BIM Object", "Source System", "BIM Attribute"],
          [[("BIM Object", "Wall"), ("Source System", "S"),
            ("BIM Attribute", "Height")]]⟩ "BIM Object",
         reconcileLabels ⟨["BIM Object", "Source System", "BIM Attribute"],
          [[("BIM Object", "Wall"), ("Source System", "S"),
            ("BIM Attribute", "Height")]]⟩ "BIM Attribute") :=
  (load_central_doc_error_iff
      (some ⟨["BIM Object", "Source System", "BIM Attribute"],
        [[("BIM Object", "Wall"), ("Source System", "S"),
          ("BIM Attribute", "Height")]]⟩)).2
    _ rfl (by decide) (by decide) (by decide)
